import Mathlib

/-!
Verification of the swarmhack tracking server (src/server.py).

The development shallowly embeds the tracking core of `server.py`:

* `Tag` / `mkTag`        — `Tag.__init__` (lines 22–43)
* `Robot`, `SensorReading` — the classes of lines 45–58
* `TrackerState`, `processTag`, `processDetections`, `sensorSweep`,
  `trackerStep`, `trackerRun` — the per-frame body of `Tracker.run`
  (lines 77–146), restricted to the tracking/state core (drawing and
  camera I/O are outside the model)
* `handleMessage`, `handlerLoop` — the websocket `handler` (lines 204–250)

Modelling conventions, used throughout:

* Pixel coordinates are integers (the source converts every corner
  coordinate with `int()` before any use; we take the integer corner
  points as input).
* Python float arithmetic is embedded as exact arithmetic.  Quantities
  whose exact value is irrational (`math.dist`, `math.atan2`,
  `scale_factor = math.dist(..)/2.06`) are represented by the exact
  integer data that determines them (squared pixel distances, integer
  direction vectors), and the real value is recovered in theorem
  statements with `Real.sqrt` and `Complex.arg`.  In particular
  `math.atan2 y x = Complex.arg ⟨x, y⟩` and
  `math.degrees r = r * 180 / π`.
* Python `dict` is an association list with insertion-order iteration
  and replace-on-reassignment (`dinsert`), matching CPython semantics.
* A raised Python exception is an `Except.error` carrying the
  exception kind; an uncaught exception aborts the enclosing loop
  (the tracker thread, or the connection handler), which the
  `Except`-valued folds reflect by short-circuiting.
-/

namespace Swarm

/-- Python exception kinds that the modelled code can raise. -/
inductive PyError where
  | keyError (k : ℤ)
  | indexError
  | zeroDivisionError
  | jsonDecodeError
deriving DecidableEq

/-- Association-list lookup, first match wins (Python dict lookup). -/
def dlookup {κ α : Type} [DecidableEq κ] (k : κ) : List (κ × α) → Option α
  | [] => none
  | e :: es => if e.1 = k then some e.2 else dlookup k es

/-- Association-list assignment `d[k] = v`: replaces the value at an
existing key in place, otherwise appends (Python dict assignment,
preserving insertion order). -/
def dinsert {κ α : Type} [DecidableEq κ] (k : κ) (v : α) : List (κ × α) → List (κ × α)
  | [] => [(k, v)]
  | e :: es => if e.1 = k then (k, v) :: es else e :: dinsert k v es

/-- Squared Euclidean distance between two integer pixel points; the
exact value of `math.dist(p, q) ** 2`. -/
def pxDistSq (p q : ℤ × ℤ) : ℤ := (p.1 - q.1) ^ 2 + (p.2 - q.2) ^ 2

/-- One structured tag, as built by `Tag.__init__` (server.py lines
22–43).  `centre` and `front` are computed with Python `int()` of an
exact float division by 4 resp. 2, which is integer division truncating
toward zero (`Int.tdiv`; division of an integer by 4 or 2 is exact in
binary floating point, so no further rounding occurs).  `angle_delta`
is the vector `front - centre`; the float field `self.angle` of the
source is `math.degrees (math.atan2 angle_delta.2 angle_delta.1)`,
recovered in the theorems as
`Complex.arg ⟨angle_delta.1, angle_delta.2⟩ * 180 / π`. -/
structure Tag where
  id : ℤ
  tl : ℤ × ℤ
  tr : ℤ × ℤ
  br : ℤ × ℤ
  bl : ℤ × ℤ
  centre : ℤ × ℤ
  front : ℤ × ℤ
  angle_delta : ℤ × ℤ
deriving DecidableEq

/-- Constructor `Tag(id, raw_tag)`: it reads `corners[0]` … `corners[3]`.
If the corner list has fewer than 4 entries this raises `IndexError`
(there is no corner-count validation in the source); extra corners
beyond the fourth are silently ignored. -/
def mkTag (id : ℤ) (corners : List (ℤ × ℤ)) : Except PyError Tag :=
  match corners with
  | c0 :: c1 :: c2 :: c3 :: _ =>
    let centre : ℤ × ℤ :=
      (Int.tdiv (c0.1 + c1.1 + c2.1 + c3.1) 4, Int.tdiv (c0.2 + c1.2 + c2.2 + c3.2) 4)
    let front : ℤ × ℤ := (Int.tdiv (c0.1 + c1.1) 2, Int.tdiv (c0.2 + c1.2) 2)
    Except.ok
      { id := id, tl := c0, tr := c1, br := c2, bl := c3
        centre := centre, front := front
        angle_delta := (front.1 - centre.1, front.2 - centre.2) }
  | _ => Except.error PyError.indexError

/-- One directed sensing observation (class `SensorReading`).  The float
fields of the source are represented exactly: `range_px_sq` is the
squared *pixel* distance between the two tag centres (the metric float
`range` of the source is `Real.sqrt range_px_sq / scale_factor`);
`bearing_delta` is the pixel displacement from the sensing robot to the
sensed robot (the float `bearing` is the angle of the metric
displacement, which is this vector divided by the positive scale
factor, so both have the same angle); `orientation_delta` is the
sensed robot's own `angle_delta`. -/
structure SensorReading where
  range_px_sq : ℤ
  bearing_delta : ℤ × ℤ
  orientation_delta : ℤ × ℤ
deriving DecidableEq

/-- One tracked robot (class `Robot`).  The float `position` of the
source is `centre_px / scale_factor` componentwise; the robot carries
the exact pixel centre.  `orientation` is the tag's angle, carried
exactly as `heading_delta = tag.angle_delta`.  `sensor_range` is the
float 0.3 (metres); it is stored exactly as an integer count of
hundredths of a metre, `sensor_range_cm = 30`. -/
structure Robot where
  id : ℤ
  centre_px : ℤ × ℤ
  heading_delta : ℤ × ℤ
  sensor_range_cm : ℤ
  neighbours : List (ℤ × SensorReading)
deriving DecidableEq

/-- Constructor call `Robot(tag, position)` as made at server.py line 103. -/
def mkRobot (t : Tag) : Robot :=
  { id := t.id, centre_px := t.centre, heading_delta := t.angle_delta
    sensor_range_cm := 30, neighbours := [] }

/-- The mutable state of the `Tracker` thread (lines 62–75).  The float
fields `corner_distance_pixels` and `scale_factor` of the source are
determined exactly by `corner_distance_sq_pixels` (the squared pixel
distance between the min and max bound points): with the reference
distance `corner_distance_metres = 2.06 = 206/100`,
`corner_distance_pixels = Real.sqrt corner_distance_sq_pixels` and
`scale_factor = Real.sqrt corner_distance_sq_pixels / (206/100)`. -/
structure TrackerState where
  calibrated : Bool
  num_corner_tags : ℕ
  min_x : ℤ
  min_y : ℤ
  max_x : ℤ
  max_y : ℤ
  corner_distance_sq_pixels : ℤ
  robots : List (ℤ × Robot)
deriving DecidableEq

/-- Initial tracker state, from `Tracker.__init__` (lines 62–75). -/
def initialTracker : TrackerState :=
  { calibrated := false, num_corner_tags := 0
    min_x := 0, min_y := 0, max_x := 0, max_y := 0
    corner_distance_sq_pixels := 0, robots := [] }

/-- The body of the per-tag loop of `Tracker.run` (lines 96–128) for a
single tag.  When calibrated, a non-corner tag becomes a robot at
`position = tag.centre / scale_factor`; this float division raises
`ZeroDivisionError` when `scale_factor == 0`, i.e. exactly when
`corner_distance_sq_pixels = 0`.  When not calibrated, a corner tag
(id 0) either records the first corner (min = max = its centre) or, on
the second corner sighting, widens the bounds with the `if` chains of
lines 115–122, stores the squared pixel distance between the min and
max points, and sets `calibrated`; `num_corner_tags` is incremented in
both corner branches.  All other tags leave the state unchanged. -/
def processTag (s : TrackerState) (t : Tag) : Except PyError TrackerState :=
  if s.calibrated then
    if t.id ≠ 0 then
      if s.corner_distance_sq_pixels = 0 then Except.error PyError.zeroDivisionError
      else Except.ok { s with robots := dinsert t.id (mkRobot t) s.robots }
    else Except.ok s
  else
    if t.id = 0 then
      if s.num_corner_tags = 0 then
        Except.ok { s with
          min_x := t.centre.1, max_x := t.centre.1
          min_y := t.centre.2, max_y := t.centre.2
          num_corner_tags := s.num_corner_tags + 1 }
      else
        Except.ok { s with
          min_x := if t.centre.1 < s.min_x then t.centre.1 else s.min_x
          max_x := if t.centre.1 > s.max_x then t.centre.1 else s.max_x
          min_y := if t.centre.2 < s.min_y then t.centre.2 else s.min_y
          max_y := if t.centre.2 > s.max_y then t.centre.2 else s.max_y
          corner_distance_sq_pixels :=
            pxDistSq
              (if t.centre.1 < s.min_x then t.centre.1 else s.min_x,
               if t.centre.2 < s.min_y then t.centre.2 else s.min_y)
              (if t.centre.1 > s.max_x then t.centre.1 else s.max_x,
               if t.centre.2 > s.max_y then t.centre.2 else s.max_y)
          calibrated := true
          num_corner_tags := s.num_corner_tags + 1 }
    else Except.ok s

/-- One raw detection: an integer marker id and its corner list in
pixel coordinates. -/
abbrev Detection := ℤ × List (ℤ × ℤ)

/-- The per-tag loop of `Tracker.run` (lines 96–128) over a whole
frame: each raw detection is resolved with `mkTag` and processed with
`processTag`; an exception aborts the loop (and with it the tracker
thread). -/
def processDetections (s : TrackerState) : List Detection → Except PyError TrackerState
  | [] => Except.ok s
  | d :: ds =>
    match mkTag d.1 d.2 with
    | Except.error e => Except.error e
    | Except.ok t =>
      match processTag s t with
      | Except.error e => Except.error e
      | Except.ok s' => processDetections s' ds

/-- The guard of server.py line 144, `range < robot.sensor_range`,
where `range = math.dist(position, other.position)` is the metric
distance.  With `scale_factor = Real.sqrt cdsq / (206/100)` the metric
distance is `Real.sqrt (pxDistSq c o) * 206 / (100 * Real.sqrt cdsq)`
and the sensor range is `sensor_range_cm / 100`; for `cdsq > 0` and a
positive sensor range the float comparison is equivalent to this
integer comparison of squares (both sides of the original comparison
are nonnegative).  The equivalence is proved in the C8 theorem below. -/
def inSensorRange (cdsq : ℤ) (r : Robot) (o : Robot) : Prop :=
  206 ^ 2 * pxDistSq r.centre_px o.centre_px < r.sensor_range_cm ^ 2 * cdsq

instance (cdsq : ℤ) (r o : Robot) : Decidable (inSensorRange cdsq r o) := by
  unfold inSensorRange; infer_instance

/-- SensorReading(range, bearing, other.orientation) of line 146,
in the exact representation described at `SensorReading`. -/
def mkReading (r : Robot) (o : Robot) : SensorReading :=
  { range_px_sq := pxDistSq r.centre_px o.centre_px
    bearing_delta := (o.centre_px.1 - r.centre_px.1, o.centre_px.2 - r.centre_px.2)
    orientation_delta := o.heading_delta }

/-- The inner loop of lines 138–146: the neighbours recorded for the
robot keyed `id` — every other entry of the robot dictionary whose
metric distance is within this robot's sensor range. -/
def nbrsFor (cdsq : ℤ) (robots : List (ℤ × Robot)) (id : ℤ) (r : Robot) :
    List (ℤ × SensorReading) :=
  robots.filterMap fun e =>
    if id ≠ e.1 ∧ inSensorRange cdsq r e.2 then some (e.1, mkReading r e.2) else none

/-- The neighbour pass of lines 136–146: every robot's `neighbours`
dictionary is (re)computed against the whole robot dictionary of the
current frame. -/
def sensorSweep (cdsq : ℤ) (robots : List (ℤ × Robot)) : List (ℤ × Robot) :=
  robots.map fun e => (e.1, { e.2 with neighbours := nbrsFor cdsq robots e.1 e.2 })

/-- One full frame of `Tracker.run` (lines 87–146, tracking core):
clear the robot dictionary (line 87); if any tags were detected
(line 90), process every detection (lines 96–128) and, if calibrated,
run the neighbour pass (lines 130–146). -/
def trackerStep (s : TrackerState) (dets : List Detection) : Except PyError TrackerState :=
  let s1 := { s with robots := ([] : List (ℤ × Robot)) }
  if dets.isEmpty then Except.ok s1
  else
    match processDetections s1 dets with
    | Except.error e => Except.error e
    | Except.ok s2 =>
      if s2.calibrated then
        Except.ok { s2 with robots := sensorSweep s2.corner_distance_sq_pixels s2.robots }
      else Except.ok s2

/-- The `while True` loop of `Tracker.run` over a list of successive
camera frames. -/
def trackerRun (s : TrackerState) : List (List Detection) → Except PyError TrackerState
  | [] => Except.ok s
  | f :: fs =>
    match trackerStep s f with
    | Except.error e => Except.error e
    | Except.ok s' => trackerRun s' fs

/-- The states of `tracker.robots` that a concurrent reader (a protocol
handler) can observe while the builder executes one frame whose robot
inserts are `ins`, the previous frame having published `old`.  Under
the CPython GIL each individual dictionary operation is atomic, but the
frame update is the sequence: rebind to a fresh empty dict (line 87),
then one insert per robot tag (line 103); a reader can run between any
two of these operations and sees, in order: the old dictionary, the
empty dictionary, and every proper prefix of the inserts, and finally
the fully inserted dictionary. -/
def builderObservableStates (old : List (ℤ × Robot)) (ins : List (ℤ × Robot)) :
    List (List (ℤ × Robot)) :=
  old :: (List.range (ins.length + 1)).map fun k =>
    (ins.take k).foldl (fun d e => dinsert e.1 e.2 d) []

/-- A decoded request message: which of the four recognized keys are
present (`"key" in message`), and the id argument of `get_robot`. -/
structure Message where
  check_awake : Bool
  get_ids : Bool
  get_robot : Option ℤ
  get_robots : Bool
deriving DecidableEq

/-- A key of the reply dictionary: either a string key or a robot id
(the `get_robots` branch uses robot ids as keys). -/
inductive RKey where
  | str (k : String)
  | rid (i : ℤ)
deriving DecidableEq

/-- A value of the reply dictionary.  Angles are carried in the exact
`heading_delta` representation; `nbrs` carries the per-neighbour
`{range, bearing, orientation}` sub-dictionaries as the exact
`SensorReading` data. -/
inductive RVal where
  | flag (b : Bool)
  | ids (l : List ℤ)
  | angle (d : ℤ × ℤ)
  | nbrs (l : List (ℤ × SensorReading))
  | robotEntry (angle : ℤ × ℤ) (nbrs : List (ℤ × SensorReading))
deriving DecidableEq

/-- The reply under construction (`reply = {}` of line 209). -/
abbrev Reply := List (RKey × RVal)

/-- The request-processing body of `handler` (lines 208–246) for one
decoded message, reading the robot dictionary `robots`: returns the
final `(reply, send_reply)` pair, or the Python exception it raises.
`get_robot` with an untracked id raises `KeyError` at line 222
(`tracker.robots[id]`). -/
def handleMessage (robots : List (ℤ × Robot)) (m : Message) :
    Except PyError (Reply × Bool) :=
  let r0 : Reply := []
  let p1 := if m.check_awake then (dinsert (RKey.str "awake") (RVal.flag true) r0, true)
            else (r0, false)
  let p2 := if m.get_ids then
              (dinsert (RKey.str "ids") (RVal.ids (robots.map Prod.fst)) p1.1, true)
            else p1
  match m.get_robot with
  | some i =>
    match dlookup i robots with
    | none => Except.error (PyError.keyError i)
    | some rob =>
      let p3 := (dinsert (RKey.str "neighbours") (RVal.nbrs rob.neighbours)
                  (dinsert (RKey.str "orientation") (RVal.angle rob.heading_delta) p2.1),
                 true)
      let p4 := if m.get_robots then
                  (robots.foldl
                    (fun acc e => dinsert (RKey.rid e.1)
                      (RVal.robotEntry e.2.heading_delta e.2.neighbours) acc) p3.1, true)
                else p3
      Except.ok p4
  | none =>
    let p4 := if m.get_robots then
                (robots.foldl
                  (fun acc e => dinsert (RKey.rid e.1)
                    (RVal.robotEntry e.2.heading_delta e.2.neighbours) acc) p2.1, true)
              else p2
    Except.ok p4

/-- One websocket packet as seen by `handler`: either it decodes to a
JSON object (modelled as a `Message`), or `json.loads` fails on it. -/
inductive Packet where
  | valid (m : Message)
  | badJson
deriving DecidableEq

/-- The `async for packet in websocket` loop of `handler` (lines
204–250) over the packets received on one connection, against a fixed
robot dictionary: collects the replies sent.  An uncaught exception —
in particular the `json.JSONDecodeError` raised at line 206 on a
packet that is not valid JSON — terminates the handler coroutine, which
closes the connection; no further packet on the connection is served. -/
def handlerLoop (robots : List (ℤ × Robot)) : List Packet → Except PyError (List Reply)
  | [] => Except.ok []
  | Packet.badJson :: _ => Except.error PyError.jsonDecodeError
  | Packet.valid m :: rest =>
    match handleMessage robots m with
    | Except.error e => Except.error e
    | Except.ok (r, send) =>
      match handlerLoop robots rest with
      | Except.error e => Except.error e
      | Except.ok rs => Except.ok (if send then r :: rs else rs)

/-- Decidable equality of `Except` results, so that concrete runs of the
modelled code can be evaluated inside proofs. -/
instance {ε α : Type} [DecidableEq ε] [DecidableEq α] : DecidableEq (Except ε α) := fun a b =>
  match a, b with
  | Except.error e, Except.error f =>
    if h : e = f then isTrue (by rw [h])
    else isFalse (by intro hc; cases hc; exact h rfl)
  | Except.error _, Except.ok _ => isFalse (by intro hc; cases hc)
  | Except.ok _, Except.error _ => isFalse (by intro hc; cases hc)
  | Except.ok x, Except.ok y =>
    if h : x = y then isTrue (by rw [h])
    else isFalse (by intro hc; cases hc; exact h rfl)

/-- The robot published by the previous cycle in the C1 scenario. -/
def robotOldC1 : Robot :=
  { id := 1, centre_px := (0, 0), heading_delta := (0, 0)
    sensor_range_cm := 30, neighbours := [] }

/-- The robot inserted by the current cycle in the C1 scenario. -/
def robotNewC1 : Robot :=
  { id := 2, centre_px := (100, 0), heading_delta := (0, 0)
    sensor_range_cm := 30, neighbours := [] }

/-- C1: the claimed snapshot atomicity is violated by the code.  With
robot 1 the complete mapping of the previous cycle and robot 2 the only
robot of the current cycle, the empty dictionary is one of the states a
concurrent reader of `tracker.robots` can observe (between the clear of
line 87 and the insert of line 103), and it is neither cycle's complete
mapping — a reader can see a partially built mapping. -/
theorem snapshot_tearing_observable :
    ([] : List (ℤ × Robot)) ∈ builderObservableStates [(1, robotOldC1)] [(2, robotNewC1)] ∧
    ([] : List (ℤ × Robot)) ≠ [(1, robotOldC1)] ∧
    ([] : List (ℤ × Robot)) ≠ [(2, robotNewC1)] := by
  refine ⟨?_, by decide, by decide⟩
  simp [builderObservableStates, List.range_succ]

/-- C2: a `get_robot` query for an id absent from the robot dictionary
does not produce a reply with an error indicator: line 222
(`tracker.robots[id]`) raises `KeyError`, the uncaught exception
terminates the handler coroutine and the connection closes, so a
subsequent well-formed request on the same connection is never
answered. -/
theorem get_robot_missing_raises_keyerror :
    handleMessage [] { check_awake := false, get_ids := false
                       get_robot := some 7, get_robots := false }
      = Except.error (PyError.keyError 7) ∧
    handlerLoop []
      [Packet.valid { check_awake := false, get_ids := false
                      get_robot := some 7, get_robots := false },
       Packet.valid { check_awake := true, get_ids := false
                      get_robot := none, get_robots := false }]
      = Except.error (PyError.keyError 7) := by
  constructor <;> rfl

/-- C3: a raw detection whose corner list does not have exactly 4
corners is not rejected with a `MalformedDetection` error: with fewer
than 4 corners, `Tag.__init__` raises `IndexError` (line 26 ff.), the
exception propagates out of the per-tag loop of `Tracker.run`, and the
rest of the cycle — here a following well-formed detection — is never
processed. -/
theorem malformed_detection_aborts_cycle :
    mkTag 5 [(0, 0), (1, 1), (2, 2)] = Except.error PyError.indexError ∧
    trackerStep initialTracker
      [(5, [(0, 0), (1, 1), (2, 2)]), (6, [(3, 3), (3, 3), (3, 3), (3, 3)])]
      = Except.error PyError.indexError := by
  constructor <;> rfl

/-- C4: a packet that is not valid JSON is not dropped with the
connection kept open: `json.loads` (line 206) raises
`json.JSONDecodeError`, the uncaught exception terminates the handler
coroutine and the connection closes, so a subsequent valid
`check_awake` request on the same connection is never served. -/
theorem bad_json_closes_connection :
    handlerLoop []
      [Packet.badJson,
       Packet.valid { check_awake := true, get_ids := false
                      get_robot := none, get_robots := false }]
      = Except.error PyError.jsonDecodeError := by
  rfl

/-- The arithmetic mean of four corner points as an exact rational
point — the centre as the spec's words describe it, for comparison
with the `Tag` built by the code (claim C9). -/
def specMeanCentre (c0 c1 c2 c3 : ℤ × ℤ) : ℚ × ℚ :=
  (((c0.1 + c1.1 + c2.1 + c3.1 : ℤ) : ℚ) / 4, ((c0.2 + c1.2 + c2.2 + c3.2 : ℤ) : ℚ) / 4)

/-- The exact midpoint of the top edge (top-left and top-right
corners), as the spec's words describe the front point. -/
def specMidFront (c0 c1 : ℤ × ℤ) : ℚ × ℚ :=
  (((c0.1 + c1.1 : ℤ) : ℚ) / 2, ((c0.2 + c1.2 : ℤ) : ℚ) / 2)

/-- Truncation toward zero of a rational — the value Python `int()`
takes on the exact quotient. -/
def truncQ (q : ℚ) : ℤ := if 0 ≤ q then ⌊q⌋ else ⌈q⌉

lemma tdiv_eq_truncQ (a : ℤ) (d : ℕ) (hd : 0 < d) :
    Int.tdiv a (d : ℤ) = truncQ ((a : ℚ) / (d : ℚ)) := by
  rcases le_or_lt 0 a with ha | ha
  · have hq : (0 : ℚ) ≤ (a : ℚ) / (d : ℚ) :=
      div_nonneg (by exact_mod_cast ha) (by positivity)
    rw [truncQ, if_pos hq, Rat.floor_intCast_div_natCast,
      Int.tdiv_eq_ediv ha (by exact_mod_cast hd.le)]
  · have hq : ¬ (0 : ℚ) ≤ (a : ℚ) / (d : ℚ) := by
      rw [not_le]
      exact div_neg_of_neg_of_pos (by exact_mod_cast ha) (by exact_mod_cast hd)
    have hneg : -((a : ℚ) / (d : ℚ)) = (((-a : ℤ) : ℚ)) / (d : ℚ) := by
      push_cast
      ring
    have hceil : ⌈(a : ℚ) / (d : ℚ)⌉ = -((-a) / (d : ℤ)) := by
      have hf : ⌊-((a : ℚ) / (d : ℚ))⌋ = -⌈(a : ℚ) / (d : ℚ)⌉ := Int.floor_neg
      have hf2 : ⌊(((-a : ℤ) : ℚ)) / (d : ℚ)⌋ = (-a) / (d : ℤ) :=
        Rat.floor_intCast_div_natCast (-a) d
      rw [hneg, hf2] at hf
      omega
    have htd : Int.tdiv a (d : ℤ) = -((-a) / (d : ℤ)) := by
      have h1 : Int.tdiv (-a) (d : ℤ) = (-a) / (d : ℤ) :=
        Int.tdiv_eq_ediv (by omega) (by exact_mod_cast hd.le)
      have h2 : Int.tdiv (-a) (d : ℤ) = -(Int.tdiv a (d : ℤ)) := Int.neg_tdiv a (d : ℤ)
      omega
    rw [truncQ, if_neg hq, htd, hceil]

/-- The tag built in the C9 counterexample scenario. -/
def tagC9 : Tag :=
  { id := 7, tl := (0, 0), tr := (1, 0), br := (1, 1), bl := (0, 1)
    centre := (0, 0), front := (0, 0), angle_delta := (0, 0) }

/-- C9 (counterexample): the claim "the derived centre equals the
arithmetic mean of the 4 corner points" is false.  For corners
(0,0), (1,0), (1,1), (0,1) the arithmetic mean is (1/2, 1/2), but the
constructor's `int()` truncation yields centre (0, 0). -/
theorem tag_centre_not_mean :
    mkTag 7 [(0, 0), (1, 0), (1, 1), (0, 1)] = Except.ok tagC9 ∧
    ((tagC9.centre.1 : ℚ), (tagC9.centre.2 : ℚ))
      ≠ specMeanCentre (0, 0) (1, 0) (1, 1) (0, 1) := by
  refine ⟨rfl, fun h => ?_⟩
  have h1 := congrArg Prod.fst h
  norm_num [specMeanCentre, tagC9] at h1

/-- C9 (amended): for every `Tag` built from a corner list with at
least four points, the centre is the componentwise truncation toward
zero of the arithmetic mean of the first four corner points, the front
is the truncation toward zero of the midpoint of the top edge
(top-left and top-right corners), and the heading is the angle in
degrees of the vector from (that) centre to (that) front relative to
the positive x-axis — i.e. the claim holds with the exact mean and
midpoint replaced by their Python `int()` truncations. -/
theorem tag_derived_fields (id : ℤ) (c0 c1 c2 c3 : ℤ × ℤ) (rest : List (ℤ × ℤ)) (t : Tag)
    (h : mkTag id (c0 :: c1 :: c2 :: c3 :: rest) = Except.ok t) :
    t.centre = (truncQ (specMeanCentre c0 c1 c2 c3).1, truncQ (specMeanCentre c0 c1 c2 c3).2) ∧
    t.front = (truncQ (specMidFront c0 c1).1, truncQ (specMidFront c0 c1).2) ∧
    t.angle_delta = (t.front.1 - t.centre.1, t.front.2 - t.centre.2) ∧
    Complex.arg ⟨(t.angle_delta.1 : ℝ), (t.angle_delta.2 : ℝ)⟩ * (180 / Real.pi)
      = Complex.arg ⟨((t.front.1 - t.centre.1 : ℤ) : ℝ), ((t.front.2 - t.centre.2 : ℤ) : ℝ)⟩
          * (180 / Real.pi) := by
  simp only [mkTag, Except.ok.injEq] at h
  subst h
  refine ⟨?_, ?_, rfl, rfl⟩
  · simp only [specMeanCentre, Prod.mk.injEq]
    constructor
    · have := tdiv_eq_truncQ (c0.1 + c1.1 + c2.1 + c3.1) 4 (by norm_num)
      simpa using this
    · have := tdiv_eq_truncQ (c0.2 + c1.2 + c2.2 + c3.2) 4 (by norm_num)
      simpa using this
  · simp only [specMidFront, Prod.mk.injEq]
    constructor
    · have := tdiv_eq_truncQ (c0.1 + c1.1) 2 (by norm_num)
      simpa using this
    · have := tdiv_eq_truncQ (c0.2 + c1.2) 2 (by norm_num)
      simpa using this

/-- Witness for `tag_derived_fields` at the concrete corner list
(0,0), (1,0), (1,1), (0,1). -/
theorem tag_derived_fields_witness :
    mkTag 7 [(0, 0), (1, 0), (1, 1), (0, 1)] = Except.ok tagC9 ∧
    (tagC9.centre
        = (truncQ (specMeanCentre (0, 0) (1, 0) (1, 1) (0, 1)).1,
           truncQ (specMeanCentre (0, 0) (1, 0) (1, 1) (0, 1)).2) ∧
      tagC9.front
        = (truncQ (specMidFront (0, 0) (1, 0)).1, truncQ (specMidFront (0, 0) (1, 0)).2) ∧
      tagC9.angle_delta = (tagC9.front.1 - tagC9.centre.1, tagC9.front.2 - tagC9.centre.2) ∧
      Complex.arg ⟨(tagC9.angle_delta.1 : ℝ), (tagC9.angle_delta.2 : ℝ)⟩ * (180 / Real.pi)
        = Complex.arg ⟨((tagC9.front.1 - tagC9.centre.1 : ℤ) : ℝ),
                       ((tagC9.front.2 - tagC9.centre.2 : ℤ) : ℝ)⟩ * (180 / Real.pi)) :=
  ⟨rfl, tag_derived_fields 7 (0, 0) (1, 0) (1, 1) (0, 1) [] tagC9 rfl⟩

/-- Equality of the calibration-relevant fields of two tracker states
(everything except the robot dictionary). -/
def calibFieldsEq (s s' : TrackerState) : Prop :=
  s.calibrated = s'.calibrated ∧ s.num_corner_tags = s'.num_corner_tags ∧
  s.min_x = s'.min_x ∧ s.min_y = s'.min_y ∧ s.max_x = s'.max_x ∧ s.max_y = s'.max_y ∧
  s.corner_distance_sq_pixels = s'.corner_distance_sq_pixels

instance (s s' : TrackerState) : Decidable (calibFieldsEq s s') := by
  unfold calibFieldsEq; infer_instance

lemma minmax_sub_sq (a b : ℤ) :
    ((if b < a then b else a) - (if b > a then b else a)) ^ 2 = (a - b) ^ 2 := by
  by_cases h1 : b < a
  · rw [if_pos h1, if_neg (by omega)]
    ring
  · by_cases h2 : b > a
    · rw [if_neg h1, if_pos h2]
    · have hab : a = b := by omega
      subst hab
      simp

lemma processTag_first_corner (s0 : TrackerState) (t : Tag) (s1 : TrackerState)
    (h0c : s0.calibrated = false) (h0n : s0.num_corner_tags = 0) (ht : t.id = 0)
    (h : processTag s0 t = Except.ok s1) :
    s1 = { s0 with
      min_x := t.centre.1, max_x := t.centre.1
      min_y := t.centre.2, max_y := t.centre.2
      num_corner_tags := s0.num_corner_tags + 1 } := by
  unfold processTag at h
  rw [if_neg (by simp [h0c]), if_pos ht, if_pos h0n] at h
  injection h with h
  exact h.symm

lemma processTag_second_corner (s : TrackerState) (t : Tag) (s' : TrackerState) (P : ℤ × ℤ)
    (hc : s.calibrated = false) (hn : s.num_corner_tags ≠ 0) (ht : t.id = 0)
    (hx1 : s.min_x = P.1) (hx2 : s.max_x = P.1) (hy1 : s.min_y = P.2) (hy2 : s.max_y = P.2)
    (h : processTag s t = Except.ok s') :
    s'.calibrated = true ∧
    s'.corner_distance_sq_pixels = pxDistSq P t.centre ∧
    s'.corner_distance_sq_pixels = pxDistSq (s'.min_x, s'.min_y) (s'.max_x, s'.max_y) := by
  unfold processTag at h
  rw [if_neg (by simp [hc]), if_pos ht, if_neg hn] at h
  injection h with h
  subst h
  refine ⟨rfl, ?_, rfl⟩
  simp only [pxDistSq, hx1, hx2, hy1, hy2]
  rw [minmax_sub_sq P.1 t.centre.1, minmax_sub_sq P.2 t.centre.2]

/-- C5: calibration determinism.  From any uncalibrated state with no
corner yet seen, processing a corner tag centred at P1, then — in the
same or any later cycle, i.e. from any state whose calibration fields
agree with the result — a corner tag centred at P2, completes
calibration with squared corner distance exactly `pxDistSq P1 P2`,
so the scale factor `sqrt cdsq / 2.06` equals
`euclideanDistance P1 P2 / 2.06`; in particular the distance between
the bounding-box min and max points equals the direct distance between
P1 and P2. -/
theorem calibration_deterministic
    (s0 : TrackerState) (t1 t2 : Tag) (P1 P2 : ℤ × ℤ)
    (h0c : s0.calibrated = false) (h0n : s0.num_corner_tags = 0)
    (ht1 : t1.id = 0) (hc1 : t1.centre = P1)
    (ht2 : t2.id = 0) (hc2 : t2.centre = P2)
    (s1 : TrackerState) (h1 : processTag s0 t1 = Except.ok s1)
    (smid : TrackerState) (hmid : calibFieldsEq s1 smid)
    (s2 : TrackerState) (h2 : processTag smid t2 = Except.ok s2) :
    s2.calibrated = true ∧
    s2.corner_distance_sq_pixels = pxDistSq P1 P2 ∧
    s2.corner_distance_sq_pixels
      = pxDistSq (s2.min_x, s2.min_y) (s2.max_x, s2.max_y) ∧
    Real.sqrt (s2.corner_distance_sq_pixels : ℝ) / ((206 : ℝ) / 100)
      = Real.sqrt ((pxDistSq P1 P2 : ℤ) : ℝ) / ((206 : ℝ) / 100) := by
  have hs1 := processTag_first_corner s0 t1 s1 h0c h0n ht1 h1
  obtain ⟨m1, m2, m3, m4, m5, m6, m7⟩ := hmid
  have hmc : smid.calibrated = false := by rw [← m1, hs1, h0c]
  have hmn : smid.num_corner_tags ≠ 0 := by rw [← m2, hs1]; simp
  have hmx1 : smid.min_x = P1.1 := by rw [← m3, hs1, hc1]
  have hmy1 : smid.min_y = P1.2 := by rw [← m4, hs1, hc1]
  have hmx2 : smid.max_x = P1.1 := by rw [← m5, hs1, hc1]
  have hmy2 : smid.max_y = P1.2 := by rw [← m6, hs1, hc1]
  obtain ⟨g1, g2, g3⟩ :=
    processTag_second_corner smid t2 s2 P1 hmc hmn ht2 hmx1 hmx2 hmy1 hmy2 h2
  rw [hc2] at g2
  exact ⟨g1, g2, g3, by rw [g2]⟩

/-- A corner tag centred at pixel point P, with degenerate corners, used
in concrete calibration scenarios. -/
def cornerTagAt (P : ℤ × ℤ) : Tag :=
  { id := 0, tl := P, tr := P, br := P, bl := P
    centre := P, front := P, angle_delta := (0, 0) }

/-- The state after the first corner sighting at (0, 0) in the C5
witness scenario. -/
def s1C5 : TrackerState :=
  { calibrated := false, num_corner_tags := 1
    min_x := 0, min_y := 0, max_x := 0, max_y := 0
    corner_distance_sq_pixels := 0, robots := [] }

/-- The state after the second corner sighting at (1030, 40) in the C5
witness scenario. -/
def s2C5 : TrackerState :=
  { calibrated := true, num_corner_tags := 2
    min_x := 0, min_y := 0, max_x := 1030, max_y := 40
    corner_distance_sq_pixels := 1062500, robots := [] }

/-- Witness for `calibration_deterministic`: corners at (0,0) then
(1030, 40) from the initial state. -/
theorem calibration_deterministic_witness :
    (initialTracker.calibrated = false ∧ initialTracker.num_corner_tags = 0 ∧
      (cornerTagAt (0, 0)).id = 0 ∧ (cornerTagAt (0, 0)).centre = ((0 : ℤ), (0 : ℤ)) ∧
      (cornerTagAt (1030, 40)).id = 0 ∧
      (cornerTagAt (1030, 40)).centre = ((1030 : ℤ), (40 : ℤ)) ∧
      processTag initialTracker (cornerTagAt (0, 0)) = Except.ok s1C5 ∧
      calibFieldsEq s1C5 s1C5 ∧
      processTag s1C5 (cornerTagAt (1030, 40)) = Except.ok s2C5) ∧
    (s2C5.calibrated = true ∧
      s2C5.corner_distance_sq_pixels = pxDistSq (0, 0) (1030, 40) ∧
      s2C5.corner_distance_sq_pixels
        = pxDistSq (s2C5.min_x, s2C5.min_y) (s2C5.max_x, s2C5.max_y) ∧
      Real.sqrt (s2C5.corner_distance_sq_pixels : ℝ) / ((206 : ℝ) / 100)
        = Real.sqrt ((pxDistSq (0, 0) (1030, 40) : ℤ) : ℝ) / ((206 : ℝ) / 100)) :=
  ⟨⟨rfl, rfl, rfl, rfl, rfl, rfl, by decide, by decide, by decide⟩,
    calibration_deterministic initialTracker (cornerTagAt (0, 0)) (cornerTagAt (1030, 40))
      (0, 0) (1030, 40) rfl rfl rfl rfl rfl rfl s1C5 (by decide) s1C5 (by decide)
      s2C5 (by decide)⟩

lemma pxDistSq_eq_zero_iff (p q : ℤ × ℤ) : pxDistSq p q = 0 ↔ p = q := by
  unfold pxDistSq
  constructor
  · intro h
    have h1 : (p.1 - q.1) ^ 2 = 0 ∧ (p.2 - q.2) ^ 2 = 0 := by
      constructor <;> nlinarith [sq_nonneg (p.1 - q.1), sq_nonneg (p.2 - q.2)]
    have e1 : p.1 = q.1 := by nlinarith [h1.1]
    have e2 : p.2 = q.2 := by nlinarith [h1.2]
    exact Prod.ext e1 e2
  · intro h
    rw [h]
    ring

/-- C10: degenerate calibration.  If the two corner sightings that
complete calibration have the same pixel centre, the stored squared
corner distance is 0, hence the scale factor `sqrt cdsq / 2.06` is 0,
and processing any robot tag afterwards raises the unguarded
`ZeroDivisionError` of the position computation
`tag.centre / scale_factor` (line 102).  Conversely, if the two corner
centres are distinct, the squared distance is nonzero and every robot
tag is processed without error — the division is well-defined exactly
under the unstated precondition that the corner centres differ. -/
theorem zero_scale_divides_by_zero
    (s0 : TrackerState) (t1 t2 : Tag) (P1 P2 : ℤ × ℤ)
    (h0c : s0.calibrated = false) (h0n : s0.num_corner_tags = 0)
    (ht1 : t1.id = 0) (hc1 : t1.centre = P1)
    (ht2 : t2.id = 0) (hc2 : t2.centre = P2)
    (s1 s2 : TrackerState)
    (h1 : processTag s0 t1 = Except.ok s1)
    (h2 : processTag s1 t2 = Except.ok s2) :
    (P1 = P2 →
      s2.calibrated = true ∧
      s2.corner_distance_sq_pixels = 0 ∧
      Real.sqrt (s2.corner_distance_sq_pixels : ℝ) / ((206 : ℝ) / 100) = 0 ∧
      ∀ t : Tag, t.id ≠ 0 →
        processTag s2 t = Except.error PyError.zeroDivisionError) ∧
    (P1 ≠ P2 →
      s2.corner_distance_sq_pixels ≠ 0 ∧
      ∀ t : Tag, t.id ≠ 0 →
        processTag s2 t
          = Except.ok { s2 with robots := dinsert t.id (mkRobot t) s2.robots }) := by
  have hs1 := processTag_first_corner s0 t1 s1 h0c h0n ht1 h1
  have hmc : s1.calibrated = false := by rw [hs1]; exact h0c
  have hmn : s1.num_corner_tags ≠ 0 := by rw [hs1]; simp
  have hmx1 : s1.min_x = P1.1 := by rw [hs1, hc1]
  have hmy1 : s1.min_y = P1.2 := by rw [hs1, hc1]
  have hmx2 : s1.max_x = P1.1 := by rw [hs1, hc1]
  have hmy2 : s1.max_y = P1.2 := by rw [hs1, hc1]
  obtain ⟨g1, g2, _⟩ :=
    processTag_second_corner s1 t2 s2 P1 hmc hmn ht2 hmx1 hmx2 hmy1 hmy2 h2
  rw [hc2] at g2
  constructor
  · intro hPP
    have hz : s2.corner_distance_sq_pixels = 0 := by
      rw [g2, pxDistSq_eq_zero_iff]
      exact hPP
    refine ⟨g1, hz, by rw [hz]; simp, fun t ht => ?_⟩
    simp [processTag, g1, ht, hz]
  · intro hPP
    have hz : s2.corner_distance_sq_pixels ≠ 0 := by
      rw [g2]
      intro hc
      exact hPP ((pxDistSq_eq_zero_iff P1 P2).mp hc)
    refine ⟨hz, fun t ht => ?_⟩
    simp [processTag, g1, ht, hz]

/-- The robot tag used in the C10 witness. -/
def robotTagC10 : Tag :=
  { id := 3, tl := (9, 9), tr := (9, 9), br := (9, 9), bl := (9, 9)
    centre := (9, 9), front := (9, 9), angle_delta := (0, 0) }

/-- The state after two coincident corner sightings at (5, 5) in the
C10 witness scenario. -/
def s2C10 : TrackerState :=
  { calibrated := true, num_corner_tags := 2
    min_x := 5, min_y := 5, max_x := 5, max_y := 5
    corner_distance_sq_pixels := 0, robots := [] }

/-- Witness for `zero_scale_divides_by_zero`: both corner sightings at
pixel centre (5, 5); the robot tag with id 3 then raises
`ZeroDivisionError`. -/
theorem zero_scale_divides_by_zero_witness :
    (initialTracker.calibrated = false ∧ initialTracker.num_corner_tags = 0 ∧
      (cornerTagAt (5, 5)).id = 0 ∧ (cornerTagAt (5, 5)).centre = ((5 : ℤ), (5 : ℤ)) ∧
      processTag initialTracker (cornerTagAt (5, 5))
        = Except.ok { initialTracker with
            min_x := 5, max_x := 5, min_y := 5, max_y := 5, num_corner_tags := 1 } ∧
      processTag { initialTracker with
            min_x := 5, max_x := 5, min_y := 5, max_y := 5, num_corner_tags := 1 }
          (cornerTagAt (5, 5)) = Except.ok s2C10 ∧
      ((5 : ℤ), (5 : ℤ)) = ((5 : ℤ), (5 : ℤ)) ∧ robotTagC10.id ≠ 0) ∧
    (s2C10.calibrated = true ∧
      s2C10.corner_distance_sq_pixels = 0 ∧
      Real.sqrt (s2C10.corner_distance_sq_pixels : ℝ) / ((206 : ℝ) / 100) = 0 ∧
      processTag s2C10 robotTagC10 = Except.error PyError.zeroDivisionError) := by
  have main :=
    zero_scale_divides_by_zero initialTracker (cornerTagAt (5, 5)) (cornerTagAt (5, 5))
      (5, 5) (5, 5) rfl rfl rfl rfl rfl rfl
      { initialTracker with
          min_x := 5, max_x := 5, min_y := 5, max_y := 5, num_corner_tags := 1 }
      s2C10 (by decide) (by decide)
  obtain ⟨hsame, _⟩ := main
  obtain ⟨w1, w2, w3, w4⟩ := hsame rfl
  exact ⟨⟨rfl, rfl, rfl, rfl, by decide, by decide, rfl, by decide⟩,
    w1, w2, w3, w4 robotTagC10 (by decide)⟩

lemma mkTag_id (i : ℤ) (cs : List (ℤ × ℤ)) (t : Tag) (h : mkTag i cs = Except.ok t) :
    t.id = i := by
  rcases cs with _ | ⟨c0, cs⟩
  · exact absurd h (by simp [mkTag])
  rcases cs with _ | ⟨c1, cs⟩
  · exact absurd h (by simp [mkTag])
  rcases cs with _ | ⟨c2, cs⟩
  · exact absurd h (by simp [mkTag])
  rcases cs with _ | ⟨c3, cs⟩
  · exact absurd h (by simp [mkTag])
  simp only [mkTag, Except.ok.injEq] at h
  rw [← h]

lemma processTag_pres_calib (s : TrackerState) (t : Tag) (s' : TrackerState)
    (hc : s.calibrated = true) (h : processTag s t = Except.ok s') :
    s'.calibrated = true ∧ s'.num_corner_tags = s.num_corner_tags ∧
    s'.min_x = s.min_x ∧ s'.min_y = s.min_y ∧ s'.max_x = s.max_x ∧ s'.max_y = s.max_y ∧
    s'.corner_distance_sq_pixels = s.corner_distance_sq_pixels ∧
    (t.id = 0 → s' = s) := by
  unfold processTag at h
  rw [if_pos hc] at h
  by_cases hid : t.id = 0
  · rw [if_neg (not_not_intro hid)] at h
    injection h with h
    subst h
    exact ⟨hc, rfl, rfl, rfl, rfl, rfl, rfl, fun _ => rfl⟩
  · rw [if_pos hid] at h
    by_cases hz : s.corner_distance_sq_pixels = 0
    · rw [if_pos hz] at h
      exact absurd h (by simp)
    · rw [if_neg hz] at h
      injection h with h
      subst h
      exact ⟨hc, rfl, rfl, rfl, rfl, rfl, rfl, fun h0 => absurd h0 hid⟩

lemma processDetections_pres_calib (dets : List Detection) (s s' : TrackerState)
    (hc : s.calibrated = true) (h : processDetections s dets = Except.ok s') :
    s'.calibrated = true ∧ s'.num_corner_tags = s.num_corner_tags ∧
    s'.min_x = s.min_x ∧ s'.min_y = s.min_y ∧ s'.max_x = s.max_x ∧ s'.max_y = s.max_y ∧
    s'.corner_distance_sq_pixels = s.corner_distance_sq_pixels := by
  induction dets generalizing s with
  | nil =>
    simp only [processDetections, Except.ok.injEq] at h
    subst h
    exact ⟨hc, rfl, rfl, rfl, rfl, rfl, rfl⟩
  | cons d ds ih =>
    simp only [processDetections] at h
    rcases hm : mkTag d.1 d.2 with e | t
    · rw [hm] at h
      exact absurd h (by simp)
    · simp only [hm] at h
      rcases hp : processTag s t with e | s1
      · rw [hp] at h
        exact absurd h (by simp)
      · simp only [hp] at h
        obtain ⟨p1, p2, p3, p4, p5, p6, p7, _⟩ := processTag_pres_calib s t s1 hc hp
        obtain ⟨q1, q2, q3, q4, q5, q6, q7⟩ := ih s1 p1 h
        exact ⟨q1, by rw [q2, p2], by rw [q3, p3], by rw [q4, p4], by rw [q5, p5],
          by rw [q6, p6], by rw [q7, p7]⟩

lemma processDetections_filter_corners (dets : List Detection) (s s' : TrackerState)
    (hc : s.calibrated = true) (h : processDetections s dets = Except.ok s') :
    processDetections s (dets.filter fun d => d.1 ≠ 0) = Except.ok s' := by
  induction dets generalizing s with
  | nil => simpa using h
  | cons d ds ih =>
    simp only [processDetections] at h
    rcases hm : mkTag d.1 d.2 with e | t
    · rw [hm] at h
      exact absurd h (by simp)
    · simp only [hm] at h
      rcases hp : processTag s t with e | s1
      · rw [hp] at h
        exact absurd h (by simp)
      · simp only [hp] at h
        by_cases hid : d.1 = 0
        · have htid : t.id = 0 := by rw [mkTag_id d.1 d.2 t hm]; exact hid
          have hs1 : s1 = s := (processTag_pres_calib s t s1 hc hp).2.2.2.2.2.2.2 htid
          rw [List.filter_cons_of_neg (by simp [hid])]
          rw [hs1] at h
          exact ih s hc h
        · rw [List.filter_cons_of_pos (by simp [hid])]
          simp only [processDetections, hm, hp]
          exact ih s1 (processTag_pres_calib s t s1 hc hp).1 h

/-- Sweeping the empty robot dictionary yields the empty dictionary. -/
lemma sensorSweep_nil (cdsq : ℤ) : sensorSweep cdsq [] = [] := rfl

lemma trackerStep_pres_calib (s : TrackerState) (dets : List Detection) (s' : TrackerState)
    (hc : s.calibrated = true) (h : trackerStep s dets = Except.ok s') :
    s'.calibrated = true ∧ s'.num_corner_tags = s.num_corner_tags ∧
    s'.min_x = s.min_x ∧ s'.min_y = s.min_y ∧ s'.max_x = s.max_x ∧ s'.max_y = s.max_y ∧
    s'.corner_distance_sq_pixels = s.corner_distance_sq_pixels := by
  unfold trackerStep at h
  by_cases he : dets.isEmpty
  · rw [if_pos he] at h
    injection h with h
    subst h
    exact ⟨hc, rfl, rfl, rfl, rfl, rfl, rfl⟩
  · rw [if_neg he] at h
    rcases hd : processDetections { s with robots := [] } dets with e | s2
    · rw [hd] at h
      exact absurd h (by simp)
    · simp only [hd] at h
      have hc1 : ({ s with robots := ([] : List (ℤ × Robot)) } : TrackerState).calibrated
          = true := hc
      obtain ⟨p1, p2, p3, p4, p5, p6, p7⟩ :=
        processDetections_pres_calib dets _ s2 hc1 hd
      rw [if_pos p1] at h
      injection h with h
      subst h
      exact ⟨p1, p2, p3, p4, p5, p6, p7⟩

lemma trackerRun_pres_calib (frames : List (List Detection)) (s s' : TrackerState)
    (hc : s.calibrated = true) (h : trackerRun s frames = Except.ok s') :
    s'.calibrated = true ∧ s'.min_x = s.min_x ∧ s'.min_y = s.min_y ∧
    s'.max_x = s.max_x ∧ s'.max_y = s.max_y ∧
    s'.corner_distance_sq_pixels = s.corner_distance_sq_pixels := by
  induction frames generalizing s with
  | nil =>
    simp only [trackerRun, Except.ok.injEq] at h
    subst h
    exact ⟨hc, rfl, rfl, rfl, rfl, rfl⟩
  | cons f fs ih =>
    simp only [trackerRun] at h
    rcases hs : trackerStep s f with e | s1
    · rw [hs] at h
      exact absurd h (by simp)
    · simp only [hs] at h
      obtain ⟨p1, _, p3, p4, p5, p6, p7⟩ := trackerStep_pres_calib s f s1 hc hs
      obtain ⟨q1, q3, q4, q5, q6, q7⟩ := ih s1 p1 h
      exact ⟨q1, by rw [q3, p3], by rw [q4, p4], by rw [q5, p5], by rw [q6, p6],
        by rw [q7, p7]⟩

lemma trackerStep_filter_corners (s : TrackerState) (dets : List Detection)
    (s' : TrackerState) (hc : s.calibrated = true)
    (h : trackerStep s dets = Except.ok s') :
    trackerStep s (dets.filter fun d => d.1 ≠ 0) = Except.ok s' := by
  unfold trackerStep at h ⊢
  by_cases he : dets.isEmpty
  · have hdets : dets = [] := List.isEmpty_iff.mp he
    subst hdets
    simpa using h
  · rw [if_neg he] at h
    rcases hd : processDetections { s with robots := [] } dets with e | s2
    · rw [hd] at h
      exact absurd h (by simp)
    · simp only [hd] at h
      have hc1 : ({ s with robots := ([] : List (ℤ × Robot)) } : TrackerState).calibrated
          = true := hc
      have hcf := processDetections_filter_corners dets _ s2 hc1 hd
      have hc2 : s2.calibrated = true := (processDetections_pres_calib dets _ s2 hc1 hd).1
      rw [if_pos hc2] at h
      by_cases hef : (dets.filter fun d => d.1 ≠ 0).isEmpty
      · rw [if_pos hef]
        have hfe : (dets.filter fun d => d.1 ≠ 0) = [] := List.isEmpty_iff.mp hef
        rw [hfe] at hcf
        simp only [processDetections, Except.ok.injEq] at hcf
        rw [← hcf] at h
        simpa [sensorSweep] using h
      · rw [if_neg hef]
        simp only [hcf]
        rw [if_pos hc2]
        exact h

/-- The calibrated state used in the C6 witness scenario. -/
def sC6 : TrackerState :=
  { calibrated := true, num_corner_tags := 2
    min_x := 0, min_y := 0, max_x := 1030, max_y := 40
    corner_distance_sq_pixels := 1062500, robots := [] }

/-- C6: calibration is terminal.  From any calibrated state, any number
of further frames (that do not crash the thread) leaves the
calibration flag set and the pixel bounds and squared corner distance
— hence the scale factor `sqrt cdsq / 2.06` — unchanged; and within
any single frame, deleting all corner-tag (id 0) detections from the
input leaves the resulting state exactly the same, i.e. corner-tag
sightings after calibration are ignored. -/
theorem calibration_terminal
    (s : TrackerState) (hc : s.calibrated = true)
    (frames : List (List Detection)) (sN : TrackerState)
    (hrun : trackerRun s frames = Except.ok sN)
    (dets : List Detection) (s1 : TrackerState)
    (hstep : trackerStep s dets = Except.ok s1) :
    (sN.calibrated = true ∧
      sN.min_x = s.min_x ∧ sN.min_y = s.min_y ∧
      sN.max_x = s.max_x ∧ sN.max_y = s.max_y ∧
      sN.corner_distance_sq_pixels = s.corner_distance_sq_pixels ∧
      Real.sqrt (sN.corner_distance_sq_pixels : ℝ) / ((206 : ℝ) / 100)
        = Real.sqrt (s.corner_distance_sq_pixels : ℝ) / ((206 : ℝ) / 100)) ∧
    trackerStep s (dets.filter fun d => d.1 ≠ 0) = Except.ok s1 := by
  obtain ⟨q1, q2, q3, q4, q5, q6⟩ := trackerRun_pres_calib frames s sN hc hrun
  exact ⟨⟨q1, q2, q3, q4, q5, q6, by rw [q6]⟩,
    trackerStep_filter_corners s dets s1 hc hstep⟩

/-- Frame used in the calibrated witness scenarios: one corner tag
(ignored after calibration) and two robot tags 100 pixels apart. -/
def scenarioDets : List Detection :=
  [(0, [(7, 7), (7, 7), (7, 7), (7, 7)]),
   (1, [(0, 0), (0, 0), (0, 0), (0, 0)]),
   (2, [(100, 0), (100, 0), (100, 0), (100, 0)])]

/-- Robot 1 of the witness scenario, with robot 2 as its neighbour. -/
def robotOneS : Robot :=
  { id := 1, centre_px := (0, 0), heading_delta := (0, 0), sensor_range_cm := 30
    neighbours := [(2, { range_px_sq := 10000, bearing_delta := (100, 0)
                         orientation_delta := (0, 0) })] }

/-- Robot 2 of the witness scenario, with robot 1 as its neighbour. -/
def robotTwoS : Robot :=
  { id := 2, centre_px := (100, 0), heading_delta := (0, 0), sensor_range_cm := 30
    neighbours := [(1, { range_px_sq := 10000, bearing_delta := (-100, 0)
                         orientation_delta := (0, 0) })] }

/-- The state published after `scenarioDets` is processed from `sC6`. -/
def scenarioState : TrackerState :=
  { calibrated := true, num_corner_tags := 2
    min_x := 0, min_y := 0, max_x := 1030, max_y := 40
    corner_distance_sq_pixels := 1062500
    robots := [(1, robotOneS), (2, robotTwoS)] }

/-- Witness for `calibration_terminal` on the concrete calibrated state
`sC6` and the frame `scenarioDets`. -/
theorem calibration_terminal_witness :
    (sC6.calibrated = true ∧
      trackerRun sC6 [scenarioDets] = Except.ok scenarioState ∧
      trackerStep sC6 scenarioDets = Except.ok scenarioState) ∧
    ((scenarioState.calibrated = true ∧
        scenarioState.min_x = sC6.min_x ∧ scenarioState.min_y = sC6.min_y ∧
        scenarioState.max_x = sC6.max_x ∧ scenarioState.max_y = sC6.max_y ∧
        scenarioState.corner_distance_sq_pixels = sC6.corner_distance_sq_pixels ∧
        Real.sqrt (scenarioState.corner_distance_sq_pixels : ℝ) / ((206 : ℝ) / 100)
          = Real.sqrt (sC6.corner_distance_sq_pixels : ℝ) / ((206 : ℝ) / 100)) ∧
      trackerStep sC6 (scenarioDets.filter fun d => d.1 ≠ 0)
        = Except.ok scenarioState) :=
  ⟨⟨rfl, by decide, by decide⟩,
    calibration_terminal sC6 rfl [scenarioDets] scenarioState (by decide)
      scenarioDets scenarioState (by decide)⟩

lemma nbrsFor_cons (cdsq : ℤ) (e : ℤ × Robot) (es : List (ℤ × Robot)) (id : ℤ) (r : Robot) :
    nbrsFor cdsq (e :: es) id r
      = if id ≠ e.1 ∧ inSensorRange cdsq r e.2 then
          (e.1, mkReading r e.2) :: nbrsFor cdsq es id r
        else nbrsFor cdsq es id r := by
  unfold nbrsFor
  rw [List.filterMap_cons]
  by_cases h : id ≠ e.1 ∧ inSensorRange cdsq r e.2
  · rw [if_pos h, if_pos h]
  · rw [if_neg h, if_neg h]

lemma dlookup_nbrsFor_self (cdsq : ℤ) (all : List (ℤ × Robot)) (id : ℤ) (r : Robot) :
    dlookup id (nbrsFor cdsq all id r) = none := by
  induction all with
  | nil => rfl
  | cons e es ih =>
    rw [nbrsFor_cons]
    by_cases hg : id ≠ e.1 ∧ inSensorRange cdsq r e.2
    · rw [if_pos hg]
      simp only [dlookup]
      rw [if_neg fun hh => hg.1 hh.symm]
      exact ih
    · rw [if_neg hg]
      exact ih

lemma dlookup_map_nbrs (cdsq : ℤ) (all : List (ℤ × Robot)) (l : List (ℤ × Robot)) (k : ℤ) :
    dlookup k (l.map fun e => (e.1, { e.2 with neighbours := nbrsFor cdsq all e.1 e.2 }))
      = Option.map (fun r => { r with neighbours := nbrsFor cdsq all k r }) (dlookup k l) := by
  induction l with
  | nil => rfl
  | cons e es ih =>
    simp only [List.map_cons, dlookup]
    by_cases hk : e.1 = k
    · subst hk
      rw [if_pos rfl, if_pos rfl]
      rfl
    · rw [if_neg hk, if_neg hk]
      exact ih

lemma dlookup_sensorSweep (cdsq : ℤ) (robots : List (ℤ × Robot)) (k : ℤ) :
    dlookup k (sensorSweep cdsq robots)
      = Option.map (fun r => { r with neighbours := nbrsFor cdsq robots k r })
          (dlookup k robots) :=
  dlookup_map_nbrs cdsq robots robots k

lemma processTag_uncalib_robots (s : TrackerState) (t : Tag) (s' : TrackerState)
    (hc : s.calibrated = false) (h : processTag s t = Except.ok s') :
    s'.robots = s.robots := by
  unfold processTag at h
  rw [if_neg (by simp [hc])] at h
  by_cases hid : t.id = 0
  · rw [if_pos hid] at h
    by_cases hn : s.num_corner_tags = 0
    · rw [if_pos hn] at h
      injection h with h
      rw [← h]
    · rw [if_neg hn] at h
      injection h with h
      rw [← h]
  · rw [if_neg hid] at h
    injection h with h
    rw [← h]

lemma processDetections_uncalib_robots (dets : List Detection) (s s' : TrackerState)
    (h : processDetections s dets = Except.ok s') (hcf : s'.calibrated = false) :
    s'.robots = s.robots := by
  induction dets generalizing s with
  | nil =>
    simp only [processDetections, Except.ok.injEq] at h
    rw [← h]
  | cons d ds ih =>
    simp only [processDetections] at h
    rcases hm : mkTag d.1 d.2 with e | t
    · rw [hm] at h
      exact absurd h (by simp)
    · simp only [hm] at h
      rcases hp : processTag s t with e | s1
      · rw [hp] at h
        exact absurd h (by simp)
      · simp only [hp] at h
        cases hsc : s.calibrated with
        | true =>
          have hc1 : s1.calibrated = true := (processTag_pres_calib s t s1 hsc hp).1
          have := (processDetections_pres_calib ds s1 s' hc1 h).1
          rw [this] at hcf
          exact absurd hcf (by simp)
        | false =>
          exact (ih s1 h).trans (processTag_uncalib_robots s t s1 hsc hp)

/-- C7: no self-neighbouring.  In every state published by a frame of
the tracker loop, no robot's id is a key of its own `neighbours`
dictionary (the guard `id != other_id` of line 140). -/
theorem no_self_neighbour
    (s : TrackerState) (dets : List Detection) (s' : TrackerState)
    (hstep : trackerStep s dets = Except.ok s')
    (id : ℤ) (r : Robot) (hr : dlookup id s'.robots = some r) :
    dlookup id r.neighbours = none := by
  unfold trackerStep at hstep
  by_cases he : dets.isEmpty
  · rw [if_pos he] at hstep
    injection hstep with hstep
    rw [← hstep] at hr
    exact absurd hr (by simp [dlookup])
  · rw [if_neg he] at hstep
    rcases hd : processDetections { s with robots := [] } dets with e | s2
    · rw [hd] at hstep
      exact absurd hstep (by simp)
    · simp only [hd] at hstep
      cases hc2 : s2.calibrated with
      | false =>
        rw [if_neg (by simp [hc2])] at hstep
        injection hstep with hstep
        rw [← hstep] at hr
        have hrob := processDetections_uncalib_robots dets { s with robots := [] } s2 hd hc2
        rw [hrob] at hr
        exact absurd hr (by simp [dlookup])
      | true =>
        rw [if_pos hc2] at hstep
        injection hstep with hstep
        rw [← hstep] at hr
        replace hr : dlookup id (sensorSweep s2.corner_distance_sq_pixels s2.robots)
            = some r := hr
        rw [dlookup_sensorSweep] at hr
        rcases hlo : dlookup id s2.robots with _ | r0
        · rw [hlo] at hr
          exact absurd hr (by simp)
        · rw [hlo] at hr
          simp only [Option.map_some', Option.some.injEq] at hr
          rw [← hr]
          exact dlookup_nbrsFor_self s2.corner_distance_sq_pixels s2.robots id r0

/-- Witness for `no_self_neighbour` on the concrete scenario frame:
robot 1 has a nonempty neighbour dictionary, and its own id is not a
key of it. -/
theorem no_self_neighbour_witness :
    trackerStep sC6 scenarioDets = Except.ok scenarioState ∧
    dlookup 1 scenarioState.robots = some robotOneS ∧
    dlookup 1 robotOneS.neighbours = none :=
  ⟨by decide, by decide,
    no_self_neighbour sC6 scenarioDets scenarioState (by decide) 1 robotOneS (by decide)⟩

/-- The keys of an association list are pairwise distinct — the basic
well-formedness of a Python dict. -/
def keysNodup {α : Type} (l : List (ℤ × α)) : Prop := (l.map Prod.fst).Nodup

lemma mem_keys_dinsert {α : Type} (k a : ℤ) (v : α) (l : List (ℤ × α)) :
    a ∈ (dinsert k v l).map Prod.fst ↔ a = k ∨ a ∈ l.map Prod.fst := by
  induction l with
  | nil => simp [dinsert]
  | cons e es ih =>
    rw [dinsert]
    by_cases hk : e.1 = k
    · rw [if_pos hk]
      simp only [List.map_cons, List.mem_cons]
      rw [hk]
      tauto
    · rw [if_neg hk]
      simp only [List.map_cons, List.mem_cons, ih]
      tauto

lemma keysNodup_dinsert {α : Type} (k : ℤ) (v : α) (l : List (ℤ × α))
    (h : keysNodup l) : keysNodup (dinsert k v l) := by
  induction l with
  | nil => simp [keysNodup, dinsert]
  | cons e es ih =>
    unfold keysNodup at h ⊢
    simp only [List.map_cons, List.nodup_cons] at h
    rw [dinsert]
    by_cases hk : e.1 = k
    · rw [if_pos hk]
      simp only [List.map_cons, List.nodup_cons]
      refine ⟨?_, h.2⟩
      rw [← hk]
      exact h.1
    · rw [if_neg hk]
      simp only [List.map_cons, List.nodup_cons]
      refine ⟨?_, ih h.2⟩
      rw [mem_keys_dinsert]
      rintro (h1 | h1)
      · exact hk h1
      · exact h.1 h1

lemma mem_dinsert {α : Type} (k : ℤ) (v : α) (l : List (ℤ × α)) (e : ℤ × α)
    (h : e ∈ dinsert k v l) : e = (k, v) ∨ e ∈ l := by
  induction l with
  | nil => simpa [dinsert] using h
  | cons a es ih =>
    by_cases hk : a.1 = k
    · rw [dinsert, if_pos hk] at h
      rcases List.mem_cons.mp h with h1 | h1
      · exact Or.inl h1
      · exact Or.inr (List.mem_cons_of_mem a h1)
    · rw [dinsert, if_neg hk] at h
      rcases List.mem_cons.mp h with h1 | h1
      · exact Or.inr (h1 ▸ List.mem_cons_self a es)
      · rcases ih h1 with h2 | h2
        · exact Or.inl h2
        · exact Or.inr (List.mem_cons_of_mem a h2)

lemma dlookup_eq_none_of_not_mem {α : Type} (k : ℤ) (l : List (ℤ × α))
    (h : k ∉ l.map Prod.fst) : dlookup k l = none := by
  induction l with
  | nil => rfl
  | cons e es ih =>
    simp only [List.map_cons, List.mem_cons, not_or] at h
    rw [dlookup, if_neg fun he => h.1 he.symm]
    exact ih h.2

lemma dlookup_mem {α : Type} (k : ℤ) (l : List (ℤ × α)) (v : α)
    (h : dlookup k l = some v) : (k, v) ∈ l := by
  induction l with
  | nil => exact absurd h (by simp [dlookup])
  | cons e es ih =>
    rw [dlookup] at h
    by_cases hk : e.1 = k
    · rw [if_pos hk] at h
      injection h with h
      subst h
      subst hk
      exact List.mem_cons_self e es
    · rw [if_neg hk] at h
      exact List.mem_cons_of_mem e (ih h)

lemma dlookup_ne_nil {α : Type} (k : ℤ) (l : List (ℤ × α)) (v : α)
    (h : dlookup k l = some v) : l ≠ [] := by
  intro he
  subst he
  exact absurd h (by simp [dlookup])

lemma dlookup_nbrsFor_not_mem (cdsq : ℤ) (all : List (ℤ × Robot)) (id : ℤ) (r : Robot)
    (k : ℤ) (h : k ∉ all.map Prod.fst) :
    dlookup k (nbrsFor cdsq all id r) = none := by
  induction all with
  | nil => rfl
  | cons e es ih =>
    simp only [List.map_cons, List.mem_cons, not_or] at h
    rw [nbrsFor_cons]
    by_cases hg : id ≠ e.1 ∧ inSensorRange cdsq r e.2
    · rw [if_pos hg, dlookup, if_neg fun he => h.1 he.symm]
      exact ih h.2
    · rw [if_neg hg]
      exact ih h.2

lemma dlookup_nbrsFor (cdsq : ℤ) (all : List (ℤ × Robot)) (id : ℤ) (r : Robot) (k : ℤ)
    (hnd : keysNodup all) :
    dlookup k (nbrsFor cdsq all id r)
      = Option.bind (dlookup k all) fun o =>
          if id ≠ k ∧ inSensorRange cdsq r o then some (mkReading r o) else none := by
  induction all with
  | nil => rfl
  | cons e es ih =>
    unfold keysNodup at hnd
    simp only [List.map_cons, List.nodup_cons] at hnd
    rw [nbrsFor_cons, dlookup]
    by_cases hk : e.1 = k
    · subst hk
      rw [if_pos rfl]
      by_cases hg : id ≠ e.1 ∧ inSensorRange cdsq r e.2
      · rw [if_pos hg, dlookup, if_pos rfl]
        simp only [Option.some_bind, if_pos hg]
      · rw [if_neg hg, dlookup_nbrsFor_not_mem cdsq es id r e.1 hnd.1]
        simp only [Option.some_bind, if_neg hg]
    · rw [if_neg hk]
      by_cases hg : id ≠ e.1 ∧ inSensorRange cdsq r e.2
      · rw [if_pos hg, dlookup, if_neg hk]
        exact ih hnd.2
      · rw [if_neg hg]
        exact ih hnd.2

lemma pxDistSq_nonneg (p q : ℤ × ℤ) : 0 ≤ pxDistSq p q := by
  unfold pxDistSq
  positivity

/-- The well-formedness invariant of the robot dictionary maintained by
the tracker loop: keys are distinct, the stored squared corner distance
is nonnegative, a nonempty dictionary implies a calibrated state with
nonzero squared corner distance (robots are only built after the
zero-division check passes), and every robot carries the constant
sensor range of 0.3 m (30 hundredths). -/
def RobotsInv (s : TrackerState) : Prop :=
  keysNodup s.robots ∧ 0 ≤ s.corner_distance_sq_pixels ∧
  (s.robots = [] ∨ (s.calibrated = true ∧ s.corner_distance_sq_pixels ≠ 0)) ∧
  ∀ e ∈ s.robots, e.2.sensor_range_cm = 30

lemma processTag_robotsInv (s : TrackerState) (t : Tag) (s' : TrackerState)
    (hinv : RobotsInv s) (h : processTag s t = Except.ok s') : RobotsInv s' := by
  obtain ⟨h1, h2, h3, h4⟩ := hinv
  unfold processTag at h
  by_cases hc : s.calibrated = true
  · rw [if_pos hc] at h
    by_cases hid : t.id ≠ 0
    · rw [if_pos hid] at h
      by_cases hz : s.corner_distance_sq_pixels = 0
      · rw [if_pos hz] at h
        exact absurd h (by simp)
      · rw [if_neg hz] at h
        injection h with h
        rw [← h]
        refine ⟨keysNodup_dinsert t.id (mkRobot t) s.robots h1, h2,
          Or.inr ⟨hc, hz⟩, ?_⟩
        intro e he
        rcases mem_dinsert t.id (mkRobot t) s.robots e he with h5 | h5
        · rw [h5]
          rfl
        · exact h4 e h5
    · rw [if_neg hid] at h
      injection h with h
      rw [← h]
      exact ⟨h1, h2, h3, h4⟩
  · rw [if_neg hc] at h
    have hcf : s.calibrated = false := by simpa using hc
    have hrob : s.robots = [] := by
      rcases h3 with h3 | ⟨h3c, _⟩
      · exact h3
      · rw [h3c] at hcf
        exact absurd hcf (by simp)
    by_cases hid : t.id = 0
    · rw [if_pos hid] at h
      by_cases hn : s.num_corner_tags = 0
      · rw [if_pos hn] at h
        injection h with h
        rw [← h]
        exact ⟨h1, h2, Or.inl hrob, h4⟩
      · rw [if_neg hn] at h
        injection h with h
        rw [← h]
        exact ⟨h1, pxDistSq_nonneg _ _, Or.inl hrob, h4⟩
    · rw [if_neg hid] at h
      injection h with h
      rw [← h]
      exact ⟨h1, h2, h3, h4⟩

lemma processDetections_robotsInv (dets : List Detection) (s s' : TrackerState)
    (hinv : RobotsInv s) (h : processDetections s dets = Except.ok s') :
    RobotsInv s' := by
  induction dets generalizing s with
  | nil =>
    simp only [processDetections, Except.ok.injEq] at h
    rw [← h]
    exact hinv
  | cons d ds ih =>
    simp only [processDetections] at h
    rcases hm : mkTag d.1 d.2 with e | t
    · rw [hm] at h
      exact absurd h (by simp)
    · simp only [hm] at h
      rcases hp : processTag s t with e | s1
      · rw [hp] at h
        exact absurd h (by simp)
      · simp only [hp] at h
        exact ih s1 (processTag_robotsInv s t s1 hinv hp) h

lemma scaled_dist_lt_iff (x1 y1 x2 y2 : ℝ) (σ R : ℝ) (hσ : 0 < σ) (hR : 0 < R) :
    Real.sqrt ((x1 / σ - x2 / σ) ^ 2 + (y1 / σ - y2 / σ) ^ 2) < R ↔
      (x1 - x2) ^ 2 + (y1 - y2) ^ 2 < R ^ 2 * σ ^ 2 := by
  rw [Real.sqrt_lt' hR]
  have he : (x1 / σ - x2 / σ) ^ 2 + (y1 / σ - y2 / σ) ^ 2
      = ((x1 - x2) ^ 2 + (y1 - y2) ^ 2) / σ ^ 2 := by
    field_simp
  rw [he, div_lt_iff₀ (by positivity)]

lemma sqrt_scaled_dist (x1 y1 x2 y2 : ℝ) (σ : ℝ) (hσ : 0 < σ) :
    Real.sqrt ((x1 / σ - x2 / σ) ^ 2 + (y1 / σ - y2 / σ) ^ 2)
      = Real.sqrt ((x1 - x2) ^ 2 + (y1 - y2) ^ 2) / σ := by
  have he : (x1 / σ - x2 / σ) ^ 2 + (y1 / σ - y2 / σ) ^ 2
      = ((x1 - x2) ^ 2 + (y1 - y2) ^ 2) / σ ^ 2 := by
    field_simp
  rw [he, Real.sqrt_div (by positivity), Real.sqrt_sq hσ.le]

lemma arg_div_scale (dx dy σ : ℝ) (hσ : 0 < σ) :
    Complex.arg ⟨dx / σ, dy / σ⟩ = Complex.arg ⟨dx, dy⟩ := by
  have he : (⟨dx / σ, dy / σ⟩ : ℂ) = ((σ⁻¹ : ℝ) : ℂ) * ⟨dx, dy⟩ := by
    apply Complex.ext
    · simp [Complex.mul_re]
      ring
    · simp [Complex.mul_im]
      ring
  rw [he]
  exact Complex.arg_real_mul _ (by positivity)

lemma px_lt_iff_real (dx dy rc cdsq : ℤ) :
    (206 ^ 2 * (dx ^ 2 + dy ^ 2) < rc ^ 2 * cdsq ↔
      ((dx : ℝ) ^ 2 + (dy : ℝ) ^ 2)
        < ((rc : ℝ) / 100) ^ 2 * ((cdsq : ℝ) / ((206 : ℝ) / 100) ^ 2)) := by
  rw [show ((rc : ℝ) / 100) ^ 2 * ((cdsq : ℝ) / ((206 : ℝ) / 100) ^ 2)
        = ((rc : ℝ) ^ 2 * (cdsq : ℝ)) / (206 : ℝ) ^ 2 from by ring,
    lt_div_iff₀ (by positivity),
    show ((dx : ℝ) ^ 2 + (dy : ℝ) ^ 2) * (206 : ℝ) ^ 2
        = ((206 ^ 2 * (dx ^ 2 + dy ^ 2) : ℤ) : ℝ) from by push_cast; ring,
    show ((rc : ℝ) ^ 2 * (cdsq : ℝ)) = ((rc ^ 2 * cdsq : ℤ) : ℝ) from by push_cast; ring,
    Int.cast_lt]

/-- The integer comparison `inSensorRange` is exactly the float
comparison `math.dist(position, other.position) < sensor_range` of
line 144, with positions `centre / scale_factor` and
`scale_factor = sqrt cdsq / 2.06`. -/
lemma inSensorRange_iff (cdsq : ℤ) (hcpos : 0 < cdsq) (r o : Robot)
    (hrc : 0 < r.sensor_range_cm) :
    inSensorRange cdsq r o ↔
      Real.sqrt
        (((r.centre_px.1 : ℝ) / (Real.sqrt (cdsq : ℝ) / ((206 : ℝ) / 100))
            - (o.centre_px.1 : ℝ) / (Real.sqrt (cdsq : ℝ) / ((206 : ℝ) / 100))) ^ 2
          + ((r.centre_px.2 : ℝ) / (Real.sqrt (cdsq : ℝ) / ((206 : ℝ) / 100))
            - (o.centre_px.2 : ℝ) / (Real.sqrt (cdsq : ℝ) / ((206 : ℝ) / 100))) ^ 2)
        < (r.sensor_range_cm : ℝ) / 100 := by
  have hσ : (0 : ℝ) < Real.sqrt (cdsq : ℝ) / ((206 : ℝ) / 100) := by
    apply div_pos
    · exact Real.sqrt_pos.mpr (by exact_mod_cast hcpos)
    · norm_num
  have hR : (0 : ℝ) < (r.sensor_range_cm : ℝ) / 100 := by
    apply div_pos
    · exact_mod_cast hrc
    · norm_num
  rw [scaled_dist_lt_iff _ _ _ _ _ _ hσ hR,
    show (Real.sqrt (cdsq : ℝ) / ((206 : ℝ) / 100)) ^ 2
        = (cdsq : ℝ) / ((206 : ℝ) / 100) ^ 2 from by
      rw [div_pow, Real.sq_sqrt (by exact_mod_cast hcpos.le)],
    show ((r.centre_px.1 : ℝ) - (o.centre_px.1 : ℝ))
        = ((r.centre_px.1 - o.centre_px.1 : ℤ) : ℝ) from by push_cast; ring,
    show ((r.centre_px.2 : ℝ) - (o.centre_px.2 : ℝ))
        = ((r.centre_px.2 - o.centre_px.2 : ℤ) : ℝ) from by push_cast; ring,
    ← px_lt_iff_real]
  unfold inSensorRange pxDistSq
  rfl

lemma range_sqrt_eq (a b : ℤ × ℤ) (σ : ℝ) (hσpos : 0 < σ) :
    Real.sqrt ((pxDistSq a b : ℤ) : ℝ) / σ
      = Real.sqrt (((a.1 : ℝ) / σ - (b.1 : ℝ) / σ) ^ 2
          + ((a.2 : ℝ) / σ - (b.2 : ℝ) / σ) ^ 2) := by
  rw [sqrt_scaled_dist _ _ _ _ σ hσpos]
  congr 2
  push_cast [pxDistSq]
  ring

/-- C8: the neighbour relation.  In every published cycle, for any two
distinct robot entries A and B, B's id is a key of A's `neighbours`
dictionary exactly when the Euclidean metric distance between A's and
B's positions (pixel centre divided by the scale factor
`σ = sqrt cdsq / 2.06`) is strictly below A's sensor range of
`sensor_range_cm / 100` metres; and when present, the recorded
reading's range equals that distance, its bearing equals
`degrees (atan2 (B.y - A.y) (B.x - A.x))` over the metric positions
(`atan2 y x = Complex.arg ⟨x, y⟩`, degrees = `· * 180 / π`), and its
orientation is exactly B's own heading. -/
theorem neighbour_relation
    (s : TrackerState) (dets : List Detection) (s' : TrackerState)
    (h0 : 0 ≤ s.corner_distance_sq_pixels)
    (hstep : trackerStep s dets = Except.ok s')
    (idA idB : ℤ) (rA rB : Robot)
    (hA : dlookup idA s'.robots = some rA)
    (hB : dlookup idB s'.robots = some rB)
    (hne : idA ≠ idB)
    (σ : ℝ)
    (hσ : σ = Real.sqrt (s'.corner_distance_sq_pixels : ℝ) / ((206 : ℝ) / 100)) :
    ((∃ rd, dlookup idB rA.neighbours = some rd) ↔
      Real.sqrt (((rA.centre_px.1 : ℝ) / σ - (rB.centre_px.1 : ℝ) / σ) ^ 2
          + ((rA.centre_px.2 : ℝ) / σ - (rB.centre_px.2 : ℝ) / σ) ^ 2)
        < (rA.sensor_range_cm : ℝ) / 100) ∧
    ∀ rd, dlookup idB rA.neighbours = some rd →
      Real.sqrt ((rd.range_px_sq : ℤ) : ℝ) / σ
        = Real.sqrt (((rA.centre_px.1 : ℝ) / σ - (rB.centre_px.1 : ℝ) / σ) ^ 2
            + ((rA.centre_px.2 : ℝ) / σ - (rB.centre_px.2 : ℝ) / σ) ^ 2) ∧
      Complex.arg ⟨(rd.bearing_delta.1 : ℝ), (rd.bearing_delta.2 : ℝ)⟩ * (180 / Real.pi)
        = Complex.arg ⟨(rB.centre_px.1 : ℝ) / σ - (rA.centre_px.1 : ℝ) / σ,
            (rB.centre_px.2 : ℝ) / σ - (rA.centre_px.2 : ℝ) / σ⟩ * (180 / Real.pi) ∧
      rd.orientation_delta = rB.heading_delta := by
  unfold trackerStep at hstep
  by_cases he : dets.isEmpty
  · rw [if_pos he] at hstep
    injection hstep with hstep
    rw [← hstep] at hA
    exact absurd hA (by simp [dlookup])
  · rw [if_neg he] at hstep
    rcases hd : processDetections { s with robots := [] } dets with e | s2
    · rw [hd] at hstep
      exact absurd hstep (by simp)
    · simp only [hd] at hstep
      have hinv0 : RobotsInv { s with robots := [] } := by
        refine ⟨?_, ?_, Or.inl rfl, ?_⟩
        · simp [keysNodup]
        · exact h0
        · intro e he
          simp at he
      have hinv : RobotsInv s2 :=
        processDetections_robotsInv dets { s with robots := [] } s2 hinv0 hd
      cases hc2 : s2.calibrated with
      | false =>
        rw [if_neg (by simp [hc2])] at hstep
        injection hstep with hstep
        rw [← hstep] at hA
        have hrob := processDetections_uncalib_robots dets { s with robots := [] } s2 hd hc2
        rw [hrob] at hA
        exact absurd hA (by simp [dlookup])
      | true =>
        rw [if_pos hc2] at hstep
        injection hstep with hstep
        subst hstep
        replace hA : dlookup idA (sensorSweep s2.corner_distance_sq_pixels s2.robots)
            = some rA := hA
        replace hB : dlookup idB (sensorSweep s2.corner_distance_sq_pixels s2.robots)
            = some rB := hB
        replace hσ : σ = Real.sqrt (s2.corner_distance_sq_pixels : ℝ) / ((206 : ℝ) / 100) :=
          hσ
        rw [dlookup_sensorSweep] at hA hB
        rcases hlA : dlookup idA s2.robots with _ | rA0
        · rw [hlA] at hA
          exact absurd hA (by simp)
        rcases hlB : dlookup idB s2.robots with _ | rB0
        · rw [hlB] at hB
          exact absurd hB (by simp)
        rw [hlA] at hA
        rw [hlB] at hB
        simp only [Option.map_some', Option.some.injEq] at hA hB
        obtain ⟨hnd, hge0, hdisj, hsr⟩ := hinv
        have hnonnil : s2.robots ≠ [] := dlookup_ne_nil idA s2.robots rA0 hlA
        have hcd_ne : s2.corner_distance_sq_pixels ≠ 0 := by
          rcases hdisj with hh | hh
          · exact absurd hh hnonnil
          · exact hh.2
        have hcpos : 0 < s2.corner_distance_sq_pixels :=
          lt_of_le_of_ne hge0 (Ne.symm hcd_ne)
        have hsrA : rA0.sensor_range_cm = 30 :=
          hsr (idA, rA0) (dlookup_mem idA s2.robots rA0 hlA)
        have hrcpos : 0 < rA0.sensor_range_cm := by
          rw [hsrA]
          norm_num
        have hnb : rA.neighbours
            = nbrsFor s2.corner_distance_sq_pixels s2.robots idA rA0 := by
          rw [← hA]
        have hcA : rA.centre_px = rA0.centre_px := by
          rw [← hA]
        have hcB : rB.centre_px = rB0.centre_px := by
          rw [← hB]
        have hsA : rA.sensor_range_cm = rA0.sensor_range_cm := by
          rw [← hA]
        have hhB : rB.heading_delta = rB0.heading_delta := by
          rw [← hB]
        have hσpos : 0 < σ := by
          rw [hσ]
          apply div_pos
          · exact Real.sqrt_pos.mpr (by exact_mod_cast hcpos)
          · norm_num
        have hlook : dlookup idB rA.neighbours
            = if idA ≠ idB ∧ inSensorRange s2.corner_distance_sq_pixels rA0 rB0
              then some (mkReading rA0 rB0) else none := by
          rw [hnb, dlookup_nbrsFor _ _ _ _ _ hnd, hlB]
          simp only [Option.some_bind]
        constructor
        · rw [hlook]
          by_cases hg : inSensorRange s2.corner_distance_sq_pixels rA0 rB0
          · rw [if_pos ⟨hne, hg⟩]
            have hreal :=
              (inSensorRange_iff s2.corner_distance_sq_pixels hcpos rA0 rB0 hrcpos).mp hg
            rw [hσ, hcA, hcB, hsA]
            exact ⟨fun _ => hreal, fun _ => ⟨mkReading rA0 rB0, rfl⟩⟩
          · rw [if_neg fun hh => hg hh.2]
            constructor
            · rintro ⟨rd, hrd⟩
              exact absurd hrd (by simp)
            · intro hlt
              exfalso
              apply hg
              apply (inSensorRange_iff s2.corner_distance_sq_pixels hcpos rA0 rB0 hrcpos).mpr
              rw [hσ, hcA, hcB, hsA] at hlt
              exact hlt
        · intro rd hrd
          rw [hlook] at hrd
          by_cases hg : idA ≠ idB ∧ inSensorRange s2.corner_distance_sq_pixels rA0 rB0
          · rw [if_pos hg] at hrd
            injection hrd with hrd
            refine ⟨?_, ?_, ?_⟩
            · rw [← hrd, hcA, hcB]
              exact range_sqrt_eq rA0.centre_px rB0.centre_px σ hσpos
            · rw [← hrd, hcA, hcB]
              have e1 : (rB0.centre_px.1 : ℝ) / σ - (rA0.centre_px.1 : ℝ) / σ
                  = ((rB0.centre_px.1 - rA0.centre_px.1 : ℤ) : ℝ) / σ := by
                push_cast
                ring
              have e2 : (rB0.centre_px.2 : ℝ) / σ - (rA0.centre_px.2 : ℝ) / σ
                  = ((rB0.centre_px.2 - rA0.centre_px.2 : ℤ) : ℝ) / σ := by
                push_cast
                ring
              rw [e1, e2, arg_div_scale _ _ σ hσpos]
              rfl
            · rw [← hrd, hhB]
              rfl
          · rw [if_neg hg] at hrd
            exact absurd hrd (by simp)

/-- Witness for `neighbour_relation` on the concrete scenario: robots 1
and 2, 100 pixels apart, with scale factor `sqrt 1062500 / 2.06`. -/
theorem neighbour_relation_witness :
    (0 ≤ sC6.corner_distance_sq_pixels ∧
      trackerStep sC6 scenarioDets = Except.ok scenarioState ∧
      dlookup 1 scenarioState.robots = some robotOneS ∧
      dlookup 2 scenarioState.robots = some robotTwoS ∧
      (1 : ℤ) ≠ 2) ∧
    ((∃ rd, dlookup 2 robotOneS.neighbours = some rd) ↔
      Real.sqrt
        (((robotOneS.centre_px.1 : ℝ)
              / (Real.sqrt (scenarioState.corner_distance_sq_pixels : ℝ) / ((206 : ℝ) / 100))
            - (robotTwoS.centre_px.1 : ℝ)
              / (Real.sqrt (scenarioState.corner_distance_sq_pixels : ℝ)
                  / ((206 : ℝ) / 100))) ^ 2
          + ((robotOneS.centre_px.2 : ℝ)
              / (Real.sqrt (scenarioState.corner_distance_sq_pixels : ℝ) / ((206 : ℝ) / 100))
            - (robotTwoS.centre_px.2 : ℝ)
              / (Real.sqrt (scenarioState.corner_distance_sq_pixels : ℝ)
                  / ((206 : ℝ) / 100))) ^ 2)
        < (robotOneS.sensor_range_cm : ℝ) / 100) ∧
    ∀ rd, dlookup 2 robotOneS.neighbours = some rd →
      Real.sqrt ((rd.range_px_sq : ℤ) : ℝ)
          / (Real.sqrt (scenarioState.corner_distance_sq_pixels : ℝ) / ((206 : ℝ) / 100))
        = Real.sqrt
            (((robotOneS.centre_px.1 : ℝ)
                  / (Real.sqrt (scenarioState.corner_distance_sq_pixels : ℝ)
                      / ((206 : ℝ) / 100))
                - (robotTwoS.centre_px.1 : ℝ)
                  / (Real.sqrt (scenarioState.corner_distance_sq_pixels : ℝ)
                      / ((206 : ℝ) / 100))) ^ 2
              + ((robotOneS.centre_px.2 : ℝ)
                  / (Real.sqrt (scenarioState.corner_distance_sq_pixels : ℝ)
                      / ((206 : ℝ) / 100))
                - (robotTwoS.centre_px.2 : ℝ)
                  / (Real.sqrt (scenarioState.corner_distance_sq_pixels : ℝ)
                      / ((206 : ℝ) / 100))) ^ 2) ∧
      Complex.arg ⟨(rd.bearing_delta.1 : ℝ), (rd.bearing_delta.2 : ℝ)⟩ * (180 / Real.pi)
        = Complex.arg
            ⟨(robotTwoS.centre_px.1 : ℝ)
                / (Real.sqrt (scenarioState.corner_distance_sq_pixels : ℝ) / ((206 : ℝ) / 100))
              - (robotOneS.centre_px.1 : ℝ)
                / (Real.sqrt (scenarioState.corner_distance_sq_pixels : ℝ) / ((206 : ℝ) / 100)),
              (robotTwoS.centre_px.2 : ℝ)
                / (Real.sqrt (scenarioState.corner_distance_sq_pixels : ℝ) / ((206 : ℝ) / 100))
              - (robotOneS.centre_px.2 : ℝ)
                / (Real.sqrt (scenarioState.corner_distance_sq_pixels : ℝ)
                    / ((206 : ℝ) / 100))⟩ * (180 / Real.pi) ∧
      rd.orientation_delta = robotTwoS.heading_delta :=
  ⟨⟨by decide, by decide, by decide, by decide, by decide⟩,
    neighbour_relation sC6 scenarioDets scenarioState (by decide) (by decide)
      1 2 robotOneS robotTwoS (by decide) (by decide) (by decide) _ rfl⟩

end Swarm
